import Mathlib

/-!
Verification of the `wmp` thread-communication library (MPSC, ONESHOT, WATCH
channels) against its specification.  The definitions below are shallow
embeddings of the C++ sources under `src/include/wmp/`: every state-mutating
member function becomes a pure function from the channel core (plus, for
blocking operations, an oracle describing what concurrent threads did during
each condition-variable wait) to the resulting core, return value, and the
condition-variable signals the function issued.  Machine integers are
modelled as `Nat` with explicit reduction modulo `2 ^ 64` where the source
uses `uint64_t` arithmetic that can wrap.
-/

namespace Wmp

-- ==========================================================================
-- ONESHOT channel (src/include/wmp/oneshot.hpp)
-- ==========================================================================

namespace Oneshot

/-- The six-state enum `wmp::oneshot::detail::state` (oneshot.hpp:19-27). -/
inductive St where
  | init
  | sent
  | wait_send
  | wait_recv
  | closed
  | closed_recv
deriving DecidableEq, Repr

/-- Predicate `wmp::oneshot::detail::is_closed` (oneshot.hpp:36-39). -/
def is_closed (s : St) : Bool :=
  s == St.closed || s == St.closed_recv

/-- Result enum `wmp::oneshot::send_result` (oneshot.hpp:87-91). -/
inductive SendResult where
  | success
  | failure
deriving DecidableEq, Repr

/-- The shared core `wmp::oneshot::detail::inner<T>` (oneshot.hpp:47-81):
the `state` field and the optional `value` slot.  The lock and the two
condition variables are modelled by the atomicity of each embedded operation
and by the wake flags each operation returns. -/
structure Inner (α : Type) where
  state : St
  value : Option α
deriving DecidableEq, Repr

/-- The fresh core built by `wmp::oneshot::create` (oneshot.hpp:62-72,
380-385): state `init`, empty value slot. -/
def mkInner (α : Type) : Inner α := ⟨St.init, none⟩

/-- Embedding of `sender::send_async` (oneshot.hpp:125-151).  Returns the
result, the core after the call, and whether `rx_cv` was signalled
(the source wakes `rx_cv` exactly when the previous state was `wait_recv`,
oneshot.hpp:145-148). -/
def send_async (c : Inner α) (v : α) : SendResult × Inner α × Bool :=
  if is_closed c.state then
    (SendResult.failure, c, false)
  else
    (SendResult.success, ⟨St.sent, some v⟩, c.state == St.wait_recv)

/-- Embedding of `sender::send_sync` (oneshot.hpp:159-200).  The third
branch of the source sleeps on `tx_cv` while the state is `wait_recv`;
`wakes` lists the core contents observed on each return from the wait, and
the loop exits at the first observed core whose state is not `wait_recv`
(the result is `none` when no such observation exists, i.e. the call blocks
forever).  The `Bool` component records whether the call signalled `rx_cv`;
the source body of `send_sync` contains no `WakeConditionVariable` call at
all, so this component is `false` on every path.  In the `wait_send` branch
(oneshot.hpp:174-179) the source stores the value, swaps the state to
`sent`, keeps `prev = wait_send`, performs no wait, and finally returns
success only when `prev == closed_recv` (oneshot.hpp:197-199) — hence
`failure`. -/
def send_sync (c : Inner α) (v : α) (wakes : List (Inner α)) :
    Option (SendResult × Inner α × Bool) :=
  if is_closed c.state then
    some (SendResult.failure, c, false)
  else if c.state == St.wait_send then
    some (SendResult.failure, ⟨St.sent, some v⟩, false)
  else
    match wakes.find? (fun c2 => c2.state != St.wait_recv) with
    | none => none
    | some c2 =>
        some
          (if c2.state == St.closed_recv then SendResult.success
           else SendResult.failure,
           ⟨St.closed, c2.value⟩, false)

/-- Embedding of `sender::close` (oneshot.hpp:206-225): unconditionally
swaps the state to `closed` and signals `rx_cv` exactly when the previous
state was `wait_send`. -/
def sender_close (c : Inner α) : Inner α × Bool :=
  (⟨St.closed, c.value⟩, c.state == St.wait_send)

/-- Embedding of `receiver::close` (oneshot.hpp:349-368): unconditionally
swaps the state to `closed` and signals `tx_cv` exactly when the previous
state was `wait_recv`. -/
def receiver_close (c : Inner α) : Inner α × Bool :=
  (⟨St.closed, c.value⟩, c.state == St.wait_recv)

/-- The predicate of the wait loop inside `receiver::recv`
(oneshot.hpp:286): the loop sleeps while `state == wait_recv`. -/
def recv_wait_pred (s : St) : Bool :=
  s == St.wait_recv

/-- Embedding of `receiver::recv` (oneshot.hpp:259-303).  Returns the
received value, the core after the call, and whether `tx_cv` was signalled.
No oracle is needed: in the third branch the source sets the state to
`wait_send` (oneshot.hpp:285) and then loops on `recv_wait_pred`
(oneshot.hpp:286), which is already false for `wait_send`, so the
condition-variable sleep is never executed and the lock is held for the
whole body — the function is deterministic in the entry core. -/
def recv (c : Inner α) : Option α × Inner α × Bool :=
  if is_closed c.state then
    (none, c, false)
  else if c.state == St.sent || c.state == St.wait_recv then
    (c.value, ⟨St.closed_recv, none⟩, c.state == St.wait_recv)
  else
    -- state := wait_send; the loop tests recv_wait_pred wait_send = false,
    -- so it exits at once; then value.swap and state := closed_recv with
    -- prev = wait_send, so tx_cv is not signalled
    (c.value, ⟨St.closed_recv, none⟩, false)

/-- Embedding of `receiver::try_recv` (oneshot.hpp:306-340). -/
def try_recv (c : Inner α) : Option α × Inner α × Bool :=
  if is_closed c.state then
    (none, c, false)
  else if c.state == St.sent || c.state == St.wait_recv then
    (c.value, ⟨St.closed_recv, none⟩, c.state == St.wait_recv)
  else
    (none, c, false)

end Oneshot

-- ==========================================================================
-- WATCH channel (src/include/wmp/watch.hpp)
-- ==========================================================================

namespace Watch

/-- Constant `wmp::watch::detail::CLOSED` (watch.hpp:22): the low bit of
the 64-bit version word is the closed flag. -/
def CLOSED : ℕ := 1

/-- Constant `wmp::watch::detail::VERSION_0` (watch.hpp:23). -/
def VERSION_0 : ℕ := 0

/-- Constant `wmp::watch::detail::VERSION_1` (watch.hpp:24): the initial
published version. -/
def VERSION_1 : ℕ := 2

/-- Modulus of the `uint64_t` version word. -/
def W64 : ℕ := 2 ^ 64

/-- The published (bit-0-masked) version carried by a version word: the
word with the `CLOSED` bit cleared. -/
def masked (v : ℕ) : ℕ := v - v % 2

/-- Result enum `wmp::watch::send_result` (watch.hpp:65-69). -/
inductive SendResult where
  | success
  | failure
deriving DecidableEq, Repr

/-- Embedding of `sender::closed` (watch.hpp:144-149).  The sender holds a
`std::weak_ptr` to the core whose strong references are held by the
receiver handles; `m_shared.lock()` yields a non-null `shared_ptr` exactly
when the strong count is positive, i.e. when at least one receiver handle
is still alive, and the source returns that pointer cast to `bool`. -/
def sender_closed (receiverCount : ℕ) : Bool :=
  decide (0 < receiverCount)

/-- Embedding of `sender::broadcast` (watch.hpp:103-135) restricted to its
effect on the result and the version word: if the weak reference cannot be
upgraded (no receiver alive) it fails without touching the version;
otherwise it stores the object under the exclusive lock and performs
`std::atomic_fetch_add(&version, 2)` on the `uint64_t` version word
(watch.hpp:129), which wraps modulo `2 ^ 64`. -/
def broadcast (alive : Bool) (version : ℕ) : SendResult × ℕ :=
  if alive then (SendResult.success, (version + 2) % W64)
  else (SendResult.failure, version)

/-- C++ logical negation `!x` applied to an integer: 1 when the operand is
zero, 0 otherwise. -/
def lognot (x : ℕ) : ℕ :=
  if x = 0 then 1 else 0

/-- The version computed at the top of `receiver::recv` (watch.hpp:260):
the source writes `state & !detail::CLOSED`, a bitwise AND with the
*logical* negation of `CLOSED`. -/
def recv_version (state : ℕ) : ℕ :=
  Nat.land state (lognot CLOSED)

/-- Modelled from the spec: the mask the specification prescribes for the
same computation, `state & ~CLOSED` with the bitwise complement taken in
the 64-bit word (watch-spec section 9: implementers must use
`state & ~CLOSED`).  Declared only to be compared with `recv_version`. -/
def recv_version_spec (state : ℕ) : ℕ :=
  Nat.land state (W64 - 1 - CLOSED)

/-- Observable outcome of one call to `receiver::recv`: whether a copy of
the value was returned (as opposed to `none`), the final per-receiver
`m_version` (the *seen version*), and whether any condition-variable sleep
was executed. -/
structure RecvOut where
  returned : Bool
  new_seen : ℕ
  slept : Bool
deriving DecidableEq, Repr

/-- Embedding of `receiver::recv` (watch.hpp:252-294), run without sender
interference (no concurrent `broadcast` and no sender drop), so the shared
version word equals `state` throughout.  Control flow of the source: load
`state`; compute `recv_version state`; exchange it into `m_version` (the
branch on the old value has an empty body, watch.hpp:263-272); if the
`CLOSED` bit of `state` is set return nothing; otherwise reload `published
= state`, and sleep while `m_version == published` (watch.hpp:283-287) —
with no interference this either exits at once (returning a copy and
storing `published` into `m_version`) or sleeps forever (result `none`).
The second argument is the entry value of `m_version` (the seen version);
since the exchange overwrites it and its old value is consulted only by the
empty `if` body, the outcome does not depend on it. -/
def watch_recv (state _seen : ℕ) : Option RecvOut :=
  let version := recv_version state
  if Nat.land state CLOSED = CLOSED then
    some ⟨false, version, false⟩
  else
    let published := state
    if version = published then
      none
    else
      some ⟨true, published, false⟩

end Watch

-- ==========================================================================
-- unique_srw lock guard (src/include/wmp/detail/unique_srw.hpp)
-- ==========================================================================

namespace Srw

/-- Enum `wmp::detail::srw_acquire`. -/
inductive Acquire where
  | exclusive
  | shared
deriving DecidableEq, Repr

/-- The guard `wmp::detail::unique_srw` (unique_srw.hpp:13-129): the
wrapped lock pointer (`none` models `nullptr`), the `m_state` flag
(`locked = true` models `state::locked`), and the acquisition mode. -/
structure UniqueSrw where
  lock : Option ℕ
  locked : Bool
  ownership : Acquire
deriving DecidableEq, Repr

/-- Embedding of `unique_srw::owns_lock` (unique_srw.hpp:96-99). -/
def owns_lock (g : UniqueSrw) : Bool :=
  g.locked

/-- The constructor `unique_srw(PSRWLOCK, srw_acquire)`
(unique_srw.hpp:26-32): acquires the lock, leaving `m_state = locked`. -/
def mk_locked (l : ℕ) (o : Acquire) : UniqueSrw :=
  ⟨some l, true, o⟩

/-- Embedding of the move constructor `unique_srw(unique_srw&&)`
(unique_srw.hpp:48-52): the new guard copies `m_lock`, `m_state` and
`m_ownership` from `other`, and the body leaves `other` untouched.  The
result is the pair (constructed guard, source guard after construction). -/
def move_construct (other : UniqueSrw) : UniqueSrw × UniqueSrw :=
  (⟨other.lock, other.locked, other.ownership⟩, other)

/-- Embedding of the move assignment `operator=(unique_srw&&)`
(unique_srw.hpp:56-74) in the `this != &rhs` case: release the held lock
if owned, copy the three members from `rhs`, then null out `rhs` (its
`m_lock` becomes `nullptr` and its `m_state` becomes `unlocked`; its
`m_ownership` is not reassigned).  The result is (assigned-to guard,
source guard after assignment, number of releases performed by the
assignment itself). -/
def move_assign (dst rhs : UniqueSrw) : UniqueSrw × UniqueSrw × ℕ :=
  (⟨rhs.lock, rhs.locked, rhs.ownership⟩,
   ⟨none, false, rhs.ownership⟩,
   if owns_lock dst then 1 else 0)

/-- Number of SRW release operations performed by the destructor
`~unique_srw` (unique_srw.hpp:34-40): one when the guard owns the lock,
zero otherwise. -/
def destruct_releases (g : UniqueSrw) : ℕ :=
  if owns_lock g then 1 else 0

end Srw

-- ==========================================================================
-- MPSC channel (src/include/wmp/mpsc.hpp)
-- ==========================================================================

namespace Mpsc

/-- Result enum `wmp::mpsc::send_result` (mpsc.hpp:44-49). -/
inductive SendResult where
  | success
  | failure
  | timeout
deriving DecidableEq, Repr

/- The queue of the core `wmp::mpsc::detail::inner<T>` (mpsc.hpp:21-38) is
modelled as a `List α` (front at the head); `capacity` is the fixed bound.
The embeddings below focus on the queue contents; condition-variable
signals do not affect the queue and are noted in the doc comments.  Every
wait releases the lock, so the queue observed when a sleep returns may have
been changed by concurrent operations: the `wakes` oracle of each blocking
embedding lists, for each return from `SleepConditionVariableSRW`, the
queue contents found on reacquiring the lock (and, for the timeout
variants, whether that sleep reported `ERROR_TIMEOUT`). -/

/-- Wait loop of `sender::send` (mpsc.hpp:84-87): sleep on `nonfull` while
`buffer.size() >= capacity`.  Returns the queue with which the loop exits,
or `none` when the oracle is exhausted while still blocked (the call never
returns). -/
def send_loop (cap : ℕ) (q : List α) (wakes : List (List α)) :
    Option (List α) :=
  match wakes with
  | [] => if cap ≤ q.length then none else some q
  | q2 :: rest => if cap ≤ q.length then send_loop cap q2 rest else some q

/-- Embedding of `sender::send` (mpsc.hpp:75-94): wait until the buffer is
below capacity, push the value, signal `nonempty`, return success. -/
def send (cap : ℕ) (q : List α) (v : α) (wakes : List (List α)) :
    Option (List α × SendResult) :=
  (send_loop cap q wakes).map (fun qe => (qe ++ [v], SendResult.success))

/-- Wait loop of `sender::send_timeout` (mpsc.hpp:113-123): sleep on
`nonfull` while `buffer.size() >= capacity && error != ERROR_TIMEOUT`; a
sleep that fails sets the error.  Returns the exit queue and the final
timed-out flag, or `none` when the oracle is exhausted while blocked. -/
def send_timeout_loop (cap : ℕ) (q : List α) (timedOut : Bool)
    (wakes : List (List α × Bool)) : Option (List α × Bool) :=
  match wakes with
  | [] =>
      if cap ≤ q.length ∧ timedOut = false then none
      else some (q, timedOut)
  | (q2, t) :: rest =>
      if cap ≤ q.length ∧ timedOut = false then
        send_timeout_loop cap q2 t rest
      else some (q, timedOut)

/-- Embedding of `sender::send_timeout` (mpsc.hpp:98-141): after the wait
loop, push the value and return success when no timeout occurred
(mpsc.hpp:125-129, 132-140), otherwise return timeout without pushing. -/
def send_timeout (cap : ℕ) (q : List α) (v : α)
    (wakes : List (List α × Bool)) : Option (List α × SendResult) :=
  (send_timeout_loop cap q false wakes).map
    (fun r =>
      if r.2 then (r.1, SendResult.timeout)
      else (r.1 ++ [v], SendResult.success))

/-- Embedding of `sender::try_send` (mpsc.hpp:144-166): push only when the
buffer size is below capacity, signalling `nonempty` on success. -/
def try_send (cap : ℕ) (q : List α) (v : α) : List α × SendResult :=
  if q.length < cap then (q ++ [v], SendResult.success)
  else (q, SendResult.failure)

/-- Wait loop of `receiver::recv` (mpsc.hpp:202-205): sleep on `nonempty`
while the buffer is empty.  Returns the (nonempty) queue with which the
loop exits, or `none` when the oracle is exhausted while blocked. -/
def recv_loop (q : List α) (wakes : List (List α)) : Option (List α) :=
  match wakes with
  | [] => if q.length = 0 then none else some q
  | q2 :: rest => if q.length = 0 then recv_loop q2 rest else some q

/-- Embedding of `receiver::recv` (mpsc.hpp:191-213): wait until nonempty,
take the front, pop it, signal `nonfull`.  The `[]` branch of the match is
unreachable: the wait loop only exits on a nonempty queue. -/
def recv (q : List α) (wakes : List (List α)) :
    Option (Option α × List α) :=
  (recv_loop q wakes).map
    (fun qe =>
      match qe with
      | [] => (none, [])
      | v :: t => (some v, t))

/-- Outcome of one call to `receiver::recv_timeout`: a normal return
carrying the returned optional value, the final queue, and the final
timed-out flag; or the undefined behaviour of evaluating `buffer.front()`
on an empty buffer; or exhaustion of the oracle while still blocked. -/
inductive RtOutcome (α : Type) where
  | ok (ret : Option α) (q : List α) (timedOut : Bool)
  | emptyFront
  | pending
deriving DecidableEq, Repr

/-- Embedding of the body of `receiver::recv_timeout` (mpsc.hpp:229-249),
translated clause by clause.  The loop condition (mpsc.hpp:231) is
`buffer.size() == 0 && error != ERROR_TIMEOUT`.  Each iteration sleeps;
on reacquiring the lock the queue is the oracle entry `q2` and the sleep
reports timeout when the flag `t` is set (mpsc.hpp:233-240).  When the
sleep did not time out, the source immediately evaluates `buffer.front()`
and pops (mpsc.hpp:242-247) without re-testing emptiness: on an empty `q2`
this is `RtOutcome.emptyFront` (undefined behaviour), otherwise the head
is stored into `value`, the tail becomes the queue, and the loop condition
is evaluated again. -/
def recv_timeout_loop (q : List α) (value : Option α) (timedOut : Bool)
    (wakes : List (List α × Bool)) : RtOutcome α :=
  if q.length = 0 ∧ timedOut = false then
    match wakes with
    | [] => RtOutcome.pending
    | (q2, t) :: rest =>
        if t then recv_timeout_loop q2 value true rest
        else
          match q2 with
          | [] => RtOutcome.emptyFront
          | v :: tail => recv_timeout_loop tail (some v) false rest
  else RtOutcome.ok value q timedOut

/-- Embedding of `receiver::recv_timeout` (mpsc.hpp:217-257): run the loop
with `value = nullopt` and no error; on a normal exit the source signals
`nonfull` only when no timeout occurred and returns `value`. -/
def recv_timeout (q : List α) (wakes : List (List α × Bool)) : RtOutcome α :=
  recv_timeout_loop q none false wakes

/-- Embedding of `receiver::try_recv` (mpsc.hpp:260-285): pop and return the
front when the buffer is nonempty, else return nothing. -/
def try_recv (q : List α) : Option α × List α :=
  match q with
  | [] => (none, [])
  | v :: t => (some v, t)

/-- One operation of an MPSC channel of capacity `cap`, as a relation on
queue contents.  Each constructor invokes the embedding of the
corresponding member function; for the blocking receive-side operations
and for a timed-out `send_timeout`, the exit queue comes from the `wakes`
oracle — those queues are the shared channel contents produced by the
other, interleaved operations, so (rely condition) they are assumed to
satisfy the same capacity bound that this relation is used to establish.
For `send` and a successful `send_timeout` no such assumption is needed:
the wait loop can only exit on a queue strictly below capacity.  The
undefined-behaviour outcome of `recv_timeout` (`emptyFront`) yields no
step. -/
inductive MpscStep {α : Type} (cap : ℕ) : List α → List α → Prop where
  | send (q : List α) (v : α) (wakes : List (List α)) (q2 : List α)
      (r : SendResult) :
      Mpsc.send cap q v wakes = some (q2, r) →
      MpscStep cap q q2
  | send_timeout (q : List α) (v : α) (wakes : List (List α × Bool))
      (q2 : List α) (r : SendResult) :
      (∀ w ∈ wakes, w.1.length ≤ cap) →
      Mpsc.send_timeout cap q v wakes = some (q2, r) →
      MpscStep cap q q2
  | try_send (q : List α) (v : α) :
      MpscStep cap q (Mpsc.try_send cap q v).1
  | recv (q : List α) (wakes : List (List α)) (ret : Option α)
      (q2 : List α) :
      (∀ w ∈ wakes, w.length ≤ cap) →
      Mpsc.recv q wakes = some (ret, q2) →
      MpscStep cap q q2
  | recv_timeout (q : List α) (wakes : List (List α × Bool))
      (ret : Option α) (q2 : List α) (t : Bool) :
      (∀ w ∈ wakes, w.1.length ≤ cap) →
      Mpsc.recv_timeout q wakes = RtOutcome.ok ret q2 t →
      MpscStep cap q q2
  | try_recv (q : List α) :
      MpscStep cap q (Mpsc.try_recv q).2

end Mpsc

end Wmp

-- ==========================================================================
-- Theorems
-- ==========================================================================

open Wmp

/-- Claim C1: closure should be terminal — `close()` on either side of a
ONESHOT channel in state `closed_recv` should leave the state `closed_recv`.
The source contradicts this: `sender::close` (oneshot.hpp:217) and
`receiver::close` (oneshot.hpp:360) swap the state to `closed`
unconditionally, so a core in state `closed_recv` transitions out of it to
`closed`.  This theorem evaluates the embedded code at that failing input. -/
theorem oneshot_close_overwrites_closed_recv :
    Oneshot.sender_close (⟨Oneshot.St.closed_recv, none⟩ : Oneshot.Inner ℕ)
      = (⟨Oneshot.St.closed, none⟩, false) ∧
    Oneshot.receiver_close (⟨Oneshot.St.closed_recv, none⟩ : Oneshot.Inner ℕ)
      = (⟨Oneshot.St.closed, none⟩, false) := by
  constructor <;> rfl

/-- Claim C2: from state `init`, `recv()` should set `wait_send` and then
wait on `rx_cv` while the state is still `wait_send`, returning a value only
after a sender deposits one.  The source waits on the wrong predicate
(`state == wait_recv`, oneshot.hpp:286), which is already false for the
state the receiver just set, so on a fresh channel `recv` never sleeps: it
immediately swaps out the (empty) value slot, marks the core `closed_recv`,
and returns nothing, with no sender ever having acted.  This theorem
evaluates the embedded code at that failing input. -/
theorem oneshot_recv_returns_without_wait :
    Oneshot.recv_wait_pred Oneshot.St.wait_send = false ∧
    Oneshot.recv (Oneshot.mkInner ℕ)
      = (none, ⟨Oneshot.St.closed_recv, none⟩, false) := by
  constructor <;> rfl

/-- Claim C4: `send_sync(v)` should return success iff the receiver extracts
the value, and in particular from state `wait_send` it should deposit the
value, wake the receiver, and wait until the state becomes `closed_recv` or
`closed` before deciding.  The source (oneshot.hpp:174-179, 197-199) instead
deposits the value, swaps the state to `sent`, signals nothing, performs no
wait, and returns `failure` immediately (its `prev` is `wait_send`, never
`closed_recv`) — even though the value remains available and a subsequent
`try_recv` extracts it, as the second conjunct shows. -/
theorem oneshot_send_sync_wait_send_fails :
    Oneshot.send_sync (⟨Oneshot.St.wait_send, none⟩ : Oneshot.Inner ℕ) 42 []
      = some (Oneshot.SendResult.failure, ⟨Oneshot.St.sent, some 42⟩, false) ∧
    Oneshot.try_recv (⟨Oneshot.St.sent, some 42⟩ : Oneshot.Inner ℕ)
      = (some 42, ⟨Oneshot.St.closed_recv, none⟩, false) := by
  constructor <;> rfl

/-- Claim C10: calling `send_async(v2)` while the channel state is `sent`
does not fail: the source (oneshot.hpp:136-142) only rejects closed states,
so it overwrites the stored value and returns success; a subsequent
`try_recv` (or `recv`) then yields `v2` and moves the core to `closed_recv`,
after which every further receive returns nothing — the channel still
delivers at most one value. -/
theorem oneshot_send_async_overwrites_sent {α : Type} (v1 v2 : α) :
    Oneshot.send_async (⟨Oneshot.St.sent, some v1⟩ : Oneshot.Inner α) v2
      = (Oneshot.SendResult.success, ⟨Oneshot.St.sent, some v2⟩, false) ∧
    Oneshot.try_recv (⟨Oneshot.St.sent, some v2⟩ : Oneshot.Inner α)
      = (some v2, ⟨Oneshot.St.closed_recv, none⟩, false) ∧
    Oneshot.recv (⟨Oneshot.St.sent, some v2⟩ : Oneshot.Inner α)
      = (some v2, ⟨Oneshot.St.closed_recv, none⟩, false) ∧
    Oneshot.try_recv (⟨Oneshot.St.closed_recv, none⟩ : Oneshot.Inner α)
      = (none, ⟨Oneshot.St.closed_recv, none⟩, false) ∧
    Oneshot.recv (⟨Oneshot.St.closed_recv, none⟩ : Oneshot.Inner α)
      = (none, ⟨Oneshot.St.closed_recv, none⟩, false) := by
  refine ⟨rfl, rfl, rfl, rfl, rfl⟩

/-- Claim C3: WATCH `sender::closed()` should return true iff no receiver
handle still exists (iff the weak reference cannot be upgraded).  The
source (watch.hpp:148) returns `static_cast<bool>(m_shared.lock())`, which
is exactly the opposite: true when the upgrade succeeds (a receiver is
still alive) and false when every receiver has been dropped.  This theorem
evaluates the embedded code on both sides of the failing input. -/
theorem watch_closed_inverted :
    Watch.sender_closed 1 = true ∧ Watch.sender_closed 0 = false := by
  constructor <;> rfl

/-- Claim C5: WATCH `receiver::recv` should compute the published version
as `state & ~CLOSED`.  The source (watch.hpp:260) instead computes
`state & !CLOSED`; since `!1` is the C++ logical negation, the mask is `0`
and the computed version is `0` for every state word, unlike the mask the
specification prescribes (which yields `2` at state `2`).  Consequently,
with published state `2` and a receiver whose seen version already equals
`2` (up to date, channel open), `recv` does not wait for the version to
change: it returns a copy immediately, as the final conjunct shows. -/
theorem watch_recv_mask_is_zero :
    (∀ s : ℕ, Watch.recv_version s = 0) ∧
    Watch.recv_version_spec 2 = 2 ∧
    Watch.watch_recv 2 2 = some ⟨true, 2, false⟩ := by
  refine ⟨fun s => ?_, by decide, by decide⟩
  have h : Watch.recv_version s = s &&& 0 := rfl
  rw [h]
  refine Nat.eq_of_testBit_eq fun k => ?_
  simp [Nat.testBit_land]

/-- Counterexample to claim C6 as stated: the version word is a `uint64_t`,
so `broadcast` at version `2 ^ 64 - 2` (closed bit clear, reachable from
the initial version 2 in steps of 2) wraps to `0`: the published masked
version becomes `0` — published, and not an increase by 2. -/
theorem watch_broadcast_wraps_to_zero :
    (Watch.broadcast true (Watch.W64 - 2)).2 = 0 ∧
    Watch.masked (Watch.broadcast true (Watch.W64 - 2)).2 = 0 ∧
    ¬ Watch.masked (Watch.broadcast true (Watch.W64 - 2)).2
        = Watch.masked (Watch.W64 - 2) + 2 := by
  refine ⟨by decide, by decide, by decide⟩

/-- Claim C6, amended for 64-bit wraparound: with at least one live
receiver, `broadcast` succeeds and adds exactly 2 to the version word
modulo `2 ^ 64`; whenever no wraparound occurs (`version + 2 < 2 ^ 64`)
the published bit-0-masked version strictly increases by exactly 2, the
CLOSED bit is unchanged, and the newly published masked version is never
`0`. -/
theorem watch_broadcast_increments_by_two (v : ℕ) (h : v + 2 < Watch.W64) :
    (Watch.broadcast true v).1 = Watch.SendResult.success ∧
    (Watch.broadcast true v).2 = v + 2 ∧
    Watch.masked (v + 2) = Watch.masked v + 2 ∧
    (v + 2) % 2 = v % 2 ∧
    0 < Watch.masked (v + 2) := by
  refine ⟨rfl, ?_, ?_, ?_, ?_⟩
  · simp only [Watch.broadcast, if_true]
    exact Nat.mod_eq_of_lt h
  · simp only [Watch.masked]
    omega
  · omega
  · simp only [Watch.masked]
    omega

/-- Witness for the amended claim C6 at the initial published version 2:
broadcasting takes the version word to 4, the masked version from 2 to 4,
parity (the CLOSED bit) is preserved, and the new masked version is
positive. -/
theorem watch_broadcast_increments_by_two_witness :
    (Watch.broadcast true 2).1 = Watch.SendResult.success ∧
    (Watch.broadcast true 2).2 = 2 + 2 ∧
    Watch.masked (2 + 2) = Watch.masked 2 + 2 ∧
    (2 + 2) % 2 = 2 % 2 ∧
    0 < Watch.masked (2 + 2) :=
  watch_broadcast_increments_by_two 2 (by decide)

/-- Claim C9: after moving from a `unique_srw` guard, the moved-from guard
should no longer own the lock, so the acquired SRW lock is released exactly
once across the two destructors.  The move *assignment*
(unique_srw.hpp:56-74) satisfies this — it nulls out its source, and across
it and the two destructors the lock is released exactly once (final
conjuncts).  But the move *constructor* (unique_srw.hpp:48-52) copies
`m_state` and leaves the source untouched: the moved-from guard still
reports `owns_lock() == true`, and the two destructors together release the
single acquired lock twice (first conjuncts) — a double release of the SRW
lock.  This theorem evaluates the embedded code at that failing input. -/
theorem unique_srw_move_ctor_double_release :
    Srw.owns_lock
        (Srw.move_construct (Srw.mk_locked 0 Srw.Acquire.exclusive)).2 = true ∧
    Srw.destruct_releases
          (Srw.move_construct (Srw.mk_locked 0 Srw.Acquire.exclusive)).1
        + Srw.destruct_releases
          (Srw.move_construct (Srw.mk_locked 0 Srw.Acquire.exclusive)).2 = 2 ∧
    Srw.owns_lock
        (Srw.move_assign ⟨none, false, Srw.Acquire.exclusive⟩
          (Srw.mk_locked 0 Srw.Acquire.exclusive)).2.1 = false ∧
    (Srw.move_assign ⟨none, false, Srw.Acquire.exclusive⟩
          (Srw.mk_locked 0 Srw.Acquire.exclusive)).2.2
        + Srw.destruct_releases
          (Srw.move_assign ⟨none, false, Srw.Acquire.exclusive⟩
            (Srw.mk_locked 0 Srw.Acquire.exclusive)).1
        + Srw.destruct_releases
          (Srw.move_assign ⟨none, false, Srw.Acquire.exclusive⟩
            (Srw.mk_locked 0 Srw.Acquire.exclusive)).2.1 = 1 := by
  refine ⟨rfl, rfl, rfl, rfl⟩

/-- The wait loop of the blocking MPSC send can only exit on a queue
strictly below capacity. -/
theorem mpsc_send_loop_length_lt {α : Type} (cap : ℕ) :
    ∀ (wakes : List (List α)) (q qe : List α),
      Mpsc.send_loop cap q wakes = some qe → qe.length < cap := by
  intro wakes
  induction wakes with
  | nil =>
      intro q qe h
      simp only [Mpsc.send_loop] at h
      split at h
      · exact Option.noConfusion h
      · next hc =>
          cases Option.some.inj h
          omega
  | cons q2 rest ih =>
      intro q qe h
      simp only [Mpsc.send_loop] at h
      split at h
      · exact ih q2 qe h
      · next hc =>
          cases Option.some.inj h
          omega

/-- The wait loop of the timed MPSC send exits on a queue strictly below
capacity when no timeout occurred, and otherwise on the initial queue or
one of the queues observed at a wakeup. -/
theorem mpsc_send_timeout_loop_length {α : Type} (cap : ℕ) :
    ∀ (wakes : List (List α × Bool)) (q : List α) (b : Bool) (qe : List α)
      (t : Bool),
      q.length ≤ cap → (∀ w ∈ wakes, w.1.length ≤ cap) →
      Mpsc.send_timeout_loop cap q b wakes = some (qe, t) →
      qe.length ≤ cap ∧ (t = false → qe.length < cap) := by
  intro wakes
  induction wakes with
  | nil =>
      intro q b qe t hq _ h
      simp only [Mpsc.send_timeout_loop] at h
      split at h
      · exact Option.noConfusion h
      · next hc =>
          injection h with h1
          injection h1 with h2 h3
          subst h2
          subst h3
          refine ⟨hq, fun hb => ?_⟩
          subst hb
          simp only [and_true] at hc
          omega
  | cons w rest ih =>
      intro q b qe t hq hw h
      obtain ⟨q2, t2⟩ := w
      simp only [Mpsc.send_timeout_loop] at h
      split at h
      · exact ih q2 t2 qe t (hw (q2, t2) (List.mem_cons_self _ _))
          (fun w2 hm => hw w2 (List.mem_cons_of_mem _ hm)) h
      · next hc =>
          injection h with h1
          injection h1 with h2 h3
          subst h2
          subst h3
          refine ⟨hq, fun hb => ?_⟩
          subst hb
          simp only [and_true] at hc
          omega

/-- The wait loop of the blocking MPSC receive exits either on the initial
queue or on one of the queues observed at a wakeup, so its exit queue obeys
any bound those queues obey. -/
theorem mpsc_recv_loop_length {α : Type} (cap : ℕ) :
    ∀ (wakes : List (List α)) (q qe : List α),
      q.length ≤ cap → (∀ w ∈ wakes, w.length ≤ cap) →
      Mpsc.recv_loop q wakes = some qe → qe.length ≤ cap := by
  intro wakes
  induction wakes with
  | nil =>
      intro q qe hq _ h
      simp only [Mpsc.recv_loop] at h
      split at h
      · exact Option.noConfusion h
      · cases Option.some.inj h
        exact hq
  | cons q2 rest ih =>
      intro q qe hq hw h
      simp only [Mpsc.recv_loop] at h
      split at h
      · exact ih q2 qe (hw q2 (List.mem_cons_self _ _))
          (fun w hm => hw w (List.mem_cons_of_mem _ hm)) h
      · cases Option.some.inj h
        exact hq

/-- A normal exit of the `recv_timeout` loop leaves a queue bounded by the
capacity, provided the entry queue and every queue observed at a wakeup
are so bounded (the loop only ever keeps such a queue or pops its head). -/
theorem mpsc_recv_timeout_loop_length {α : Type} (cap : ℕ) :
    ∀ (wakes : List (List α × Bool)) (q : List α) (v : Option α) (b : Bool)
      (ret : Option α) (qe : List α) (t : Bool),
      q.length ≤ cap → (∀ w ∈ wakes, w.1.length ≤ cap) →
      Mpsc.recv_timeout_loop q v b wakes = Mpsc.RtOutcome.ok ret qe t →
      qe.length ≤ cap := by
  intro wakes
  induction wakes with
  | nil =>
      intro q v b ret qe t hq _ h
      simp only [Mpsc.recv_timeout_loop] at h
      split at h
      · exact Mpsc.RtOutcome.noConfusion h
      · injection h with h1 h2 h3
        subst h2
        exact hq
  | cons w rest ih =>
      intro q v b ret qe t hq hw h
      obtain ⟨q2, t2⟩ := w
      simp only [Mpsc.recv_timeout_loop] at h
      split at h
      · split at h
        · exact ih q2 v true ret qe t (hw (q2, t2) (List.mem_cons_self _ _))
            (fun w2 hm => hw w2 (List.mem_cons_of_mem _ hm)) h
        · cases q2 with
          | nil => exact Mpsc.RtOutcome.noConfusion h
          | cons vh tail =>
              have htl : tail.length ≤ cap := by
                have hh := hw (vh :: tail, t2) (List.mem_cons_self _ _)
                simp only [List.length_cons] at hh
                omega
              exact ih tail (some vh) false ret qe t htl
                (fun w2 hm => hw w2 (List.mem_cons_of_mem _ hm)) h
      · injection h with h1 h2 h3
        subst h2
        exact hq

/-- A single MPSC operation preserves the capacity bound on the queue. -/
theorem mpsc_step_preserves_length {α : Type} (cap : ℕ) (q q2 : List α)
    (hq : q.length ≤ cap) (h : Wmp.Mpsc.MpscStep cap q q2) :
    q2.length ≤ cap := by
  cases h with
  | send v wakes q2 r heq =>
      cases hsl : Mpsc.send_loop cap q wakes with
      | none => simp [Mpsc.send, hsl] at heq
      | some qe =>
          have hlt := mpsc_send_loop_length_lt cap wakes q qe hsl
          simp only [Mpsc.send, hsl, Option.map_some'] at heq
          injection heq with h1
          injection h1 with h2 h3
          subst h2
          simp only [List.length_append, List.length_cons, List.length_nil]
          omega
  | send_timeout v wakes q2 r hw heq =>
      cases hsl : Mpsc.send_timeout_loop cap q false wakes with
      | none => simp [Mpsc.send_timeout, hsl] at heq
      | some p =>
          obtain ⟨qe, t⟩ := p
          have hb := mpsc_send_timeout_loop_length cap wakes q false qe t hq hw hsl
          simp only [Mpsc.send_timeout, hsl, Option.map_some'] at heq
          cases t with
          | true =>
              injection heq with h1
              injection h1 with h2 h3
              subst h2
              exact hb.1
          | false =>
              injection heq with h1
              injection h1 with h2 h3
              subst h2
              have := hb.2 rfl
              simp only [List.length_append, List.length_cons, List.length_nil]
              omega
  | try_send v =>
      simp only [Mpsc.try_send]
      split
      · next hlt =>
          simp only [List.length_append, List.length_cons, List.length_nil]
          omega
      · exact hq
  | recv wakes ret q2 hw heq =>
      cases hsl : Mpsc.recv_loop q wakes with
      | none => simp [Mpsc.recv, hsl] at heq
      | some qe =>
          have hb := mpsc_recv_loop_length cap wakes q qe hq hw hsl
          simp only [Mpsc.recv, hsl, Option.map_some'] at heq
          cases qe with
          | nil =>
              injection heq with h1
              injection h1 with h2 h3
              subst h3
              simp
          | cons vh tail =>
              injection heq with h1
              injection h1 with h2 h3
              subst h3
              simp only [List.length_cons] at hb
              omega
  | recv_timeout wakes ret q2 t hw heq =>
      exact mpsc_recv_timeout_loop_length cap wakes q none false ret q2 t hq hw heq
  | try_recv =>
      cases q with
      | nil => exact hq
      | cons vh tail =>
          simp only [Mpsc.try_recv]
          simp only [List.length_cons] at hq
          omega

/-- Claim C7: across any sequence of `send`, `send_timeout`, `try_send`,
`recv`, `recv_timeout` and `try_recv` operations on an MPSC channel of
capacity `cap`, the queue length stays within `[0, cap]`: the blocking
sends wait while the queue holds `cap` elements (their wait loops only
exit below capacity), `try_send` appends only below capacity, and the
receive operations only pop, so no operation grows the queue beyond `cap`
or shrinks it below `0` (the length of a `List`, like `size_t`, cannot go
below zero).  The queues observed by a wait at wakeup are channel states
produced by the interleaved operations, so the step relation assumes the
bound for them (rely condition). -/
theorem mpsc_queue_length_invariant {α : Type} (cap : ℕ) (q q2 : List α)
    (h0 : q.length ≤ cap)
    (h : Relation.ReflTransGen (Wmp.Mpsc.MpscStep cap) q q2) :
    q2.length ≤ cap ∧ 0 ≤ q2.length := by
  refine ⟨?_, Nat.zero_le _⟩
  induction h with
  | refl => exact h0
  | tail hab hbc ih => exact mpsc_step_preserves_length cap _ _ ih hbc

/-- Witness for claim C7: from the empty queue of a capacity-1 channel, a
`try_send` step reaches the one-element queue, whose length lies in
`[0, 1]`. -/
theorem mpsc_queue_length_invariant_witness :
    ([5] : List ℕ).length ≤ 1 ∧ 0 ≤ ([5] : List ℕ).length := by
  have h1 : Wmp.Mpsc.MpscStep 1 ([] : List ℕ)
      (Mpsc.try_send 1 ([] : List ℕ) 5).1 :=
    Wmp.Mpsc.MpscStep.try_send ([] : List ℕ) 5
  have h0 : (Mpsc.try_send 1 ([] : List ℕ) 5).1 = [5] := by decide
  rw [h0] at h1
  exact mpsc_queue_length_invariant 1 [] [5] (by decide)
    (Relation.ReflTransGen.single h1)

/-- Claim C8: in `recv_timeout` every return from the condition-variable
wait should re-evaluate the nonempty predicate before the front element is
read.  The source (mpsc.hpp:242-247) does not: when the sleep returns
without `ERROR_TIMEOUT` it immediately evaluates `buffer.front()` and pops,
so a spurious wakeup while the queue is still empty reads the front of an
empty queue (first conjunct — undefined behaviour).  The remaining
conjuncts show two further divergences of the same loop: entered with a
nonempty queue it returns nothing without popping (the loop body, the only
place the front is read, never runs), and after a successful pop it keeps
sleeping, so it can return a popped value on the timeout path. -/
theorem mpsc_recv_timeout_empty_front :
    Mpsc.recv_timeout ([] : List ℕ) [([], false)]
      = Mpsc.RtOutcome.emptyFront ∧
    Mpsc.recv_timeout ([5] : List ℕ) []
      = Mpsc.RtOutcome.ok none [5] false ∧
    Mpsc.recv_timeout ([] : List ℕ) [([1], false), ([], true)]
      = Mpsc.RtOutcome.ok (some 1) [] true := by
  refine ⟨by decide, by decide, by decide⟩
